import Mathlib

/-!
Shallow embedding of the chatapp server's conversation / message / realtime
subsystem, translated from the TypeScript source:

* `src/server/db/schema.ts`          — data model (tables and enums)
* `src/server/routes/conversations`  — list / create / assign / close handlers
* `src/server/routes/messages.ts`    — message append handler
* `src/server/utils/helpers.ts`      — `generateProtocol`
* `src/server/socket` module         — handshake principal, rooms, `message:send`
* `src/server/middleware/auth.ts`    — `generateToken` (claims it signs)

Database rows are Lean structures; the database is explicit state threaded
through each handler.  UUIDs are modelled as `Nat` drawn from a fresh-id
counter, `defaultNow()` timestamps as a `Nat` clock passed per request.
`Math.random()` draws are modelled as an explicit stream of draws, and the
unbounded protocol-collision retry loop as fuel-bounded recursion.
-/

namespace ChatApp

/-- `user_role` enum from `schema.ts`. -/
inductive Role where
  | client
  | attendant
  | admin
deriving DecidableEq

/-- `conversation_status` enum from `schema.ts`. -/
inductive ConvStatus where
  | pending
  | active
  | closed
deriving DecidableEq

/-- The authenticated REST principal (`req.user` from `middleware/auth.ts`). -/
structure AuthUser where
  id : Nat
  email : String
  role : Role
  name : String
deriving DecidableEq

/-- A row of the `conversations` table. -/
structure Conversation where
  id : Nat
  protocol : String
  channelId : Option Nat
  clientId : Nat
  attendantId : Option Nat
  status : ConvStatus
  createdAt : Nat
  updatedAt : Nat
deriving DecidableEq

/-- A row of the `messages` table. -/
structure Message where
  id : Nat
  conversationId : Nat
  senderId : Nat
  content : String
  createdAt : Nat
deriving DecidableEq

/-- A row of the `protocols` table. -/
structure ProtocolRecord where
  protocol : String
  conversationId : Nat
deriving DecidableEq

/-- The persistence store: the tables touched by the subsystem, plus the
fresh-id counter standing in for `defaultRandom()` uuid generation. -/
structure DB where
  conversations : List Conversation
  messages : List Message
  protocols : List ProtocolRecord
  nextId : Nat
deriving DecidableEq

/-- An error response `res.status(code).json(\x7b error: msg \x7d)`. -/
structure ErrRes where
  code : Nat
  msg : String
deriving DecidableEq

/-- A domain event handed to `triggerWebhook`; the claims only inspect event
names, so payloads are not modelled. -/
abbrev WebhookEvent : Type := String

/-- Payload of a `message:new` socket emission. -/
structure EmitPayload where
  conversationId : Nat
  content : String
  senderId : Nat
  senderName : String
  createdAt : Nat
deriving DecidableEq

/-- One socket emission: `io.to(room).emit(event, payload)`, or
`socket.to(room).emit(...)` which excludes the emitting socket. -/
structure SocketEmit where
  room : String
  event : String
  payload : EmitPayload
  exceptSock : Option Nat
deriving DecidableEq

/-- Everything a REST handler produces: the new store, the HTTP result, the
webhook events fired, and the socket emissions performed. -/
structure RouteResult (α : Type) where
  db : DB
  res : Except ErrRes α
  events : List WebhookEvent
  emits : List SocketEmit

/-- `db.select().from(conversations).where(eq(conversations.id, id))` with the
`[conversation]` head destructuring. -/
def findConversation (db : DB) (id : Nat) : Option Conversation :=
  db.conversations.find? (fun c => c.id == id)

/-- The 16-character alphabet `'0123456789ABCDEF'` of `generateProtocol`. -/
def hexAlphabet : List Char :=
  ['0', '1', '2', '3', '4', '5', '6', '7', '8', '9', 'A', 'B', 'C', 'D', 'E', 'F']

/-- `chars.charAt(Math.floor(Math.random() * chars.length))`: one draw.
`Math.random() < 1` so the index is always in range; the default is dead. -/
def hexChar (d : Fin 16) : Char :=
  hexAlphabet.getD d.val 'X'

/-- `generateProtocol` from `helpers.ts`: 13 independent draws from the hex
alphabet, concatenated.  The `Math.random()` draws are the argument. -/
def generateProtocol (draw : Fin 13 → Fin 16) : String :=
  String.mk ((List.finRange 13).map fun i => hexChar (draw i))

/-- `db.conversations` already holds this protocol code (the emptiness check
on the `where(eq(conversations.protocol, protocol))` select). -/
def protocolTaken (db : DB) (p : String) : Bool :=
  db.conversations.any (fun c => c.protocol == p)

/-- The `while (existing.length > 0)` re-draw loop of the create handler:
walk the candidate stream until a free code is found.  The source loop is
unbounded; fuel makes it total, `none` standing for non-termination. -/
def pickProtocol (db : DB) (cands : Nat → String) : Nat → Option String
  | 0 => none
  | fuel + 1 =>
    if protocolTaken db (cands 0) then
      pickProtocol db (fun n => cands (n + 1)) fuel
    else
      some (cands 0)

/-- Body of `POST /conversations`. -/
structure CreateBody where
  channelId : Option Nat
  initialMessage : Option String

/-- Body of `POST /messages`; `conversationId = none` models a missing field
(the `!conversationId` falsiness check). -/
structure MessageBody where
  conversationId : Option Nat
  content : String

/-- The message response: the inserted row plus the `sender` summary. -/
structure SenderInfo where
  id : Nat
  name : String
deriving DecidableEq

structure MessageResult where
  message : Message
  sender : SenderInfo
deriving DecidableEq

/-- `POST /conversations` (create handler in the conversations route file). -/
def createConversation (db : DB) (now : Nat) (user : AuthUser) (body : CreateBody)
    (draws : Nat → Fin 13 → Fin 16) (fuel : Nat) : RouteResult Conversation :=
  if user.role ≠ Role.client then
    ⟨db, Except.error ⟨403, "Only clients can create conversations"⟩, [], []⟩
  else
    match pickProtocol db (fun n => generateProtocol (draws n)) fuel with
    | none =>
      -- the source's retry loop simply never returns on exhausted fuel
      ⟨db, Except.error ⟨500, "protocol retry loop did not terminate"⟩, [], []⟩
    | some protocol =>
      let conv : Conversation :=
        ⟨db.nextId, protocol, body.channelId, user.id, none, ConvStatus.pending, now, now⟩
      let db1 : DB := { db with
        conversations := db.conversations ++ [conv], nextId := db.nextId + 1 }
      let db2 : DB := { db1 with protocols := db1.protocols ++ [⟨protocol, conv.id⟩] }
      let db3 : DB :=
        match body.initialMessage with
        | none => db2
        | some m =>
          -- `if (initialMessage)` is falsy on the empty string
          if m = "" then db2
          else { db2 with
            messages := db2.messages ++ [⟨db2.nextId, conv.id, user.id, m, now⟩],
            nextId := db2.nextId + 1 }
      ⟨db3, Except.ok conv, ["conversation.created"], []⟩

/-- `POST /conversations/:id/assign`. -/
def assignConversation (db : DB) (now : Nat) (user : AuthUser) (id : Nat) :
    RouteResult Conversation :=
  if user.role ≠ Role.attendant ∧ user.role ≠ Role.admin then
    ⟨db, Except.error ⟨403, "Only attendants and admins can assign conversations"⟩, [], []⟩
  else
    match findConversation db id with
    | none => ⟨db, Except.error ⟨404, "Conversation not found"⟩, [], []⟩
    | some conv =>
      if conv.status ≠ ConvStatus.pending then
        ⟨db, Except.error ⟨400, "Conversation is not pending"⟩, [], []⟩
      else
        let upd : Conversation :=
          { conv with attendantId := some user.id, status := ConvStatus.active, updatedAt := now }
        ⟨{ db with conversations := db.conversations.map fun c =>
            if c.id = id then
              { c with attendantId := some user.id, status := ConvStatus.active, updatedAt := now }
            else c },
          Except.ok upd, ["conversation.assigned"], []⟩

/-- `POST /conversations/:id/close`. -/
def closeConversation (db : DB) (now : Nat) (user : AuthUser) (id : Nat) :
    RouteResult Conversation :=
  match findConversation db id with
  | none => ⟨db, Except.error ⟨404, "Conversation not found"⟩, [], []⟩
  | some conv =>
    if user.role = Role.client ∧ conv.clientId ≠ user.id then
      ⟨db, Except.error ⟨403, "Access denied"⟩, [], []⟩
    else if user.role = Role.attendant ∧ conv.attendantId ≠ some user.id then
      ⟨db, Except.error ⟨403, "Access denied"⟩, [], []⟩
    else
      let upd : Conversation := { conv with status := ConvStatus.closed, updatedAt := now }
      ⟨{ db with conversations := db.conversations.map fun c =>
          if c.id = id then { c with status := ConvStatus.closed, updatedAt := now } else c },
        Except.ok upd, ["conversation.closed"], []⟩

/-- `POST /messages` from `routes/messages.ts`.  Note: the handler fires the
`message.created` webhook but performs no socket emission of any kind —
`emitToConversation` from the socket module is not imported or called there. -/
def sendMessage (db : DB) (now : Nat) (user : AuthUser) (body : MessageBody) :
    RouteResult MessageResult :=
  match body.conversationId with
  | none => ⟨db, Except.error ⟨400, "Conversation ID and content are required"⟩, [], []⟩
  | some cid =>
    if body.content = "" then
      ⟨db, Except.error ⟨400, "Conversation ID and content are required"⟩, [], []⟩
    else
      match findConversation db cid with
      | none => ⟨db, Except.error ⟨404, "Conversation not found"⟩, [], []⟩
      | some conv =>
        if user.role = Role.client ∧ conv.clientId ≠ user.id then
          ⟨db, Except.error ⟨403, "Access denied"⟩, [], []⟩
        else if user.role = Role.client ∧ conv.status ≠ ConvStatus.active then
          ⟨db, Except.error ⟨400, "Conversation is not active yet"⟩, [], []⟩
        else if user.role = Role.attendant ∧ conv.attendantId ≠ some user.id then
          ⟨db, Except.error ⟨403, "Access denied"⟩, [], []⟩
        else
          let msg : Message := ⟨db.nextId, cid, user.id, body.content, now⟩
          let db1 : DB := { db with messages := db.messages ++ [msg], nextId := db.nextId + 1 }
          let db2 : DB := { db1 with conversations := db1.conversations.map fun c =>
            if c.id = cid then { c with updatedAt := now } else c }
          ⟨db2, Except.ok ⟨msg, ⟨user.id, user.name⟩⟩, ["message.created"], []⟩

/-- The role-dependent `whereCondition` of `GET /conversations` (none for
admin). -/
def roleWhere (user : AuthUser) : Option (Conversation → Bool) :=
  match user.role with
  | Role.client => some fun c => c.clientId == user.id
  | Role.attendant => some fun c =>
      c.status == ConvStatus.pending || c.attendantId == some user.id
  | Role.admin => none

/-- `orderBy(desc(conversations.createdAt))`. -/
def sortByCreatedAtDesc (l : List Conversation) : List Conversation :=
  l.mergeSort (fun a b => decide (b.createdAt ≤ a.createdAt))

/-- `GET /conversations`: role visibility condition intersected with the
optional status filter, ordered by creation time descending. -/
def listConversations (db : DB) (user : AuthUser) (statusFilter : Option ConvStatus) :
    List Conversation :=
  let cond : Conversation → Bool :=
    match statusFilter, roleWhere user with
    | none, none => fun _ => true
    | none, some w => w
    | some s, none => fun c => c.status == s
    | some s, some w => fun c => w c && c.status == s
  sortByCreatedAtDesc (db.conversations.filter cond)

instance {ε α : Type} [DecidableEq ε] [DecidableEq α] : DecidableEq (Except ε α) :=
  fun x y =>
    match x, y with
    | Except.ok a, Except.ok b =>
      if h : a = b then isTrue (by rw [h]) else isFalse (fun hxy => h (Except.ok.inj hxy))
    | Except.ok _, Except.error _ => isFalse (fun hxy => Except.noConfusion hxy)
    | Except.error _, Except.ok _ => isFalse (fun hxy => Except.noConfusion hxy)
    | Except.error e, Except.error f =>
      if h : e = f then isTrue (by rw [h])
      else isFalse (fun hxy => h (Except.error.inj hxy))

/-- `r.isOk` on the HTTP result. -/
def exceptOk {α : Type} : Except ErrRes α → Bool
  | Except.ok _ => true
  | Except.error _ => false

/-- One state-changing request against the subsystem. -/
inductive Op where
  | create (user : AuthUser) (body : CreateBody) (draws : Nat → Fin 13 → Fin 16) (fuel : Nat)
  | assign (user : AuthUser) (id : Nat)
  | close (user : AuthUser) (id : Nat)
  | append (user : AuthUser) (body : MessageBody)

/-- The store produced by one request. -/
def applyOp (db : DB) (now : Nat) : Op → DB
  | Op.create user body draws fuel => (createConversation db now user body draws fuel).db
  | Op.assign user id => (assignConversation db now user id).db
  | Op.close user id => (closeConversation db now user id).db
  | Op.append user body => (sendMessage db now user body).db

/-- Status of the `i`-th conversation row, if present. -/
def statusAt (db : DB) (i : Nat) : Option ConvStatus :=
  (db.conversations[i]?).map (fun c => c.status)

/-- The status transitions a single request may perform on a row: no change,
`pending → active` (assign), `pending → closed` or `active → closed` (close). -/
def StatusStep (a b : ConvStatus) : Prop :=
  a = b ∨
  (a = ConvStatus.pending ∧ b = ConvStatus.active) ∨
  (a = ConvStatus.pending ∧ b = ConvStatus.closed) ∨
  (a = ConvStatus.active ∧ b = ConvStatus.closed)

instance (a b : ConvStatus) : Decidable (StatusStep a b) := by
  unfold StatusStep; infer_instance

/-- The stores reached after each request of a run. -/
def runOps : DB → List (Nat × Op) → List DB
  | _, [] => []
  | db, (t, op) :: rest =>
    let db1 := applyOp db t op
    db1 :: runOps db1 rest

/-- The status one conversation shows in each store of a list (skipping
stores where it does not exist yet). -/
def statusesOf (cid : Nat) (dbs : List DB) : List ConvStatus :=
  dbs.filterMap (fun db => (findConversation db cid).map (fun c => c.status))

/-- The spec's §8.2 property verbatim: the observed status sequence is an
initial segment (left factor) of the canonical chain
`pending -> active -> closed`. -/
def initialSegmentOfCanonicalChain (tr : List ConvStatus) : Prop :=
  tr = [ConvStatus.pending, ConvStatus.active, ConvStatus.closed].take tr.length

instance (tr : List ConvStatus) : Decidable (initialSegmentOfCanonicalChain tr) := by
  unfold initialSegmentOfCanonicalChain; infer_instance

/-- The §3 invariant: every `pending` conversation has no attendant. -/
def pendingNoAttendant (db : DB) : Prop :=
  ∀ c ∈ db.conversations, c.status = ConvStatus.pending → c.attendantId = none

instance (db : DB) : Decidable (pendingNoAttendant db) := by
  unfold pendingNoAttendant; infer_instance

/-- The spec's visibility predicate for `list` (§4.1), stated from the spec's
words, to be compared with the query the code builds. -/
def specVisibleTo (user : AuthUser) (c : Conversation) : Prop :=
  match user.role with
  | Role.client => c.clientId = user.id
  | Role.attendant => c.status = ConvStatus.pending ∨ c.attendantId = some user.id
  | Role.admin => True

/-! ### Realtime gateway (`src/server/socket`) -/

/-- The principal decoded from the handshake token (`socket.user`). -/
structure SocketUser where
  id : Nat
  email : String
  role : Role
  name : String
deriving DecidableEq

/-- The claims `jwt.verify` yields: `userId` always, the rest optional. -/
structure TokenClaims where
  userId : Nat
  email : Option String
  role : Option Role
  name : Option String
deriving DecidableEq

/-- The gateway's auth middleware: builds the principal from the decoded
claims, defaulting email/name to `''` and role to `'client'`. -/
def socketPrincipal (t : TokenClaims) : SocketUser :=
  { id := t.userId
    email := t.email.getD ""
    role := t.role.getD Role.client
    name := t.name.getD "" }

/-- `generateToken` from `middleware/auth.ts` signs exactly `\x7b userId \x7d`:
no email, role or name claim. -/
def generateTokenClaims (userId : Nat) : TokenClaims :=
  ⟨userId, none, none, none⟩

def roleString : Role → String
  | Role.client => "client"
  | Role.attendant => "attendant"
  | Role.admin => "admin"

/-- The two rooms auto-joined on connection: `user:<id>` and `role:<role>`. -/
def connectRooms (u : SocketUser) : List String :=
  ["user:" ++ toString u.id, "role:" ++ roleString u.role]

/-- One connected socket: its id, principal, and joined rooms. -/
structure Connection where
  sockId : Nat
  user : SocketUser
  rooms : List String
deriving DecidableEq

/-- The `join:conversation` handler: `socket.join('conversation:' + id)`. -/
def onJoinConversation (conn : Connection) (cid : Nat) : Connection :=
  { conn with rooms := conn.rooms ++ ["conversation:" ++ toString cid] }

/-- The `leave:conversation` handler. -/
def onLeaveConversation (conn : Connection) (cid : Nat) : Connection :=
  { conn with rooms := conn.rooms.filter (fun r => r ≠ "conversation:" ++ toString cid) }

/-- Inbound payload of the socket `message:send` event. -/
structure SendData where
  conversationId : Nat
  content : String
deriving DecidableEq

/-- The `message:send` handler of the gateway: it relays a `message:new`
event to the conversation room (excluding the emitting socket) and touches
nothing else — in particular it never writes to the store, which is passed
through untouched. -/
def onMessageSend (db : DB) (now : Nat) (sockId : Nat) (user : SocketUser)
    (data : SendData) : DB × List SocketEmit :=
  (db,
    [⟨"conversation:" ++ toString data.conversationId, "message:new",
      ⟨data.conversationId, data.content, user.id, user.name, now⟩, some sockId⟩])

/-- Whether a connection receives an emission: it is in the target room and
is not the excluded (emitting) socket. -/
def receives (conn : Connection) (e : SocketEmit) : Bool :=
  (conn.rooms.contains e.room) && !(e.exceptSock == some conn.sockId)

/-- The emissions a connection receives out of a batch, in order. -/
def deliveredEvents (conn : Connection) (emits : List SocketEmit) : List SocketEmit :=
  emits.filter (fun e => receives conn e)

/-! ### Concrete scenario fixtures used by witnesses and counterexamples -/

/-- A client principal, as produced by `authenticate`. -/
def bugClient : AuthUser := ⟨1, "client@example.com", Role.client, "Client One"⟩

/-- An active conversation owned by client 1, assigned to attendant 2. -/
def bugConv : Conversation := ⟨7, "0123456789ABC", none, 1, some 2, ConvStatus.active, 0, 0⟩

def bugDB : DB := ⟨[bugConv], [], [], 100⟩

/-- A connection (user 3) that has joined room `conversation:7`. -/
def bugListener : Connection :=
  onJoinConversation
    ⟨42, socketPrincipal (generateTokenClaims 3),
      connectRooms (socketPrincipal (generateTokenClaims 3))⟩ 7

/-- Client used by the create-then-close run. -/
def cxClient : AuthUser := ⟨1, "client@example.com", Role.client, "Client One"⟩

/-- A run: the client creates a conversation (id 0) and then closes it
directly from `pending`, never assigning it. -/
def cxRun : List (Nat × Op) :=
  [(0, Op.create cxClient ⟨none, none⟩ (fun _ _ => 0) 1),
   (1, Op.close cxClient 0)]

/-- The status trace conversation 0 shows across that run. -/
def cxTrace : List ConvStatus :=
  statusesOf 0 (runOps ⟨[], [], [], 0⟩ cxRun)

def c2wDB : DB := ⟨[⟨3, "0000000000000", none, 1, none, ConvStatus.pending, 0, 0⟩], [], [], 4⟩

def c2wAtt : AuthUser := ⟨2, "att@example.com", Role.attendant, "Att"⟩

def c3Conv : Conversation := ⟨5, "0000000000001", none, 1, some 9, ConvStatus.closed, 0, 0⟩

def c3DB : DB := ⟨[c3Conv], [], [], 6⟩

def c3Att : AuthUser := ⟨2, "att@example.com", Role.attendant, "Att"⟩

def c4DB : DB := ⟨[⟨0, "0000000000002", none, 1, none, ConvStatus.pending, 0, 0⟩], [], [], 1⟩

def c5Client : AuthUser := ⟨1, "client@example.com", Role.client, "Client One"⟩

def c5Conv : Conversation :=
  ⟨0, "5555555555555", none, 1, none, ConvStatus.pending, 0, 0⟩

def c6Admin : AuthUser := ⟨9, "admin@example.com", Role.admin, "Admin"⟩

def c6Conv : Conversation := ⟨1, "0000000000003", none, 1, some 2, ConvStatus.closed, 0, 0⟩

def c6DB : DB := ⟨[c6Conv], [], [], 2⟩

def c7Att : AuthUser := ⟨2, "att@example.com", Role.attendant, "Att"⟩

def c7Conv : Conversation := ⟨1, "0000000000004", none, 1, some 2, ConvStatus.closed, 0, 0⟩

def c7DB : DB := ⟨[c7Conv], [], [], 2⟩

/-! ## Theorems -/

/-- C9: the socket `message:send` event broadcasts exactly one `message:new`
emission to the `conversation:<id>` room (excluding the emitting socket) and
performs no write to the store: conversations, messages, protocols and the
id counter are all returned unchanged. -/
theorem socket_send_broadcasts_without_persisting (db : DB) (now : Nat)
    (sockId : Nat) (user : SocketUser) (data : SendData) :
    (onMessageSend db now sockId user data).1 = db ∧
    (onMessageSend db now sockId user data).2 =
      [⟨"conversation:" ++ toString data.conversationId, "message:new",
        ⟨data.conversationId, data.content, user.id, user.name, now⟩, some sockId⟩] :=
  ⟨rfl, rfl⟩

/-- C10: a handshake token decoding without role/email/name claims yields a
principal with role `client` and empty email and name; since `generateToken`
signs only `userId`, every app-issued token produces exactly that principal,
and the connection is auto-joined to `user:<id>` and `role:client`. -/
theorem socket_principal_defaults :
    (∀ uid : Nat,
      socketPrincipal (generateTokenClaims uid) = ⟨uid, "", Role.client, ""⟩ ∧
      connectRooms (socketPrincipal (generateTokenClaims uid)) =
        ["user:" ++ toString uid, "role:client"]) ∧
    (∀ t : TokenClaims, t.role = none → (socketPrincipal t).role = Role.client) ∧
    (∀ t : TokenClaims, t.email = none → (socketPrincipal t).email = "") ∧
    (∀ t : TokenClaims, t.name = none → (socketPrincipal t).name = "") := by
  refine ⟨fun uid => ⟨rfl, rfl⟩, fun t h => ?_, fun t h => ?_, fun t h => ?_⟩ <;>
    simp [socketPrincipal, h]

theorem socket_principal_defaults_witness :
    (socketPrincipal ⟨5, none, none, none⟩).role = Role.client :=
  socket_principal_defaults.2.1 ⟨5, none, none, none⟩ rfl

/-- C1 (failing run): in a store holding the active conversation 7 owned by
client 1, client 1's `POST /messages` succeeds — the message row is returned
and the `message.created` webhook fires — yet the handler performs no socket
emission at all, so a connection that has joined room `conversation:7`
receives zero `message:new` events, not one: `emitToConversation` exists in
the socket module but the message route never calls it. -/
theorem append_success_emits_no_realtime_event :
    (sendMessage bugDB 5 bugClient ⟨some 7, "hello"⟩).res =
      Except.ok ⟨⟨100, 7, 1, "hello", 5⟩, ⟨1, "Client One"⟩⟩ ∧
    (sendMessage bugDB 5 bugClient ⟨some 7, "hello"⟩).events = ["message.created"] ∧
    (sendMessage bugDB 5 bugClient ⟨some 7, "hello"⟩).db.messages =
      [⟨100, 7, 1, "hello", 5⟩] ∧
    bugListener.rooms.contains "conversation:7" = true ∧
    (sendMessage bugDB 5 bugClient ⟨some 7, "hello"⟩).emits = [] ∧
    deliveredEvents bugListener (sendMessage bugDB 5 bugClient ⟨some 7, "hello"⟩).emits = [] :=
  ⟨rfl, rfl, rfl, rfl, rfl, rfl⟩

/-- C2 (counterexample to the claim as stated): closing a conversation
straight from `pending` is accepted, so the run create-then-close produces
the status trace `[pending, closed]`, which is not an initial segment
(left factor) of the canonical chain `pending -> active -> closed`. -/
theorem create_close_trace_not_initial_segment :
    cxTrace = [ConvStatus.pending, ConvStatus.closed] ∧
    ¬ initialSegmentOfCanonicalChain cxTrace := by
  decide

/-- C3: assigning a conversation whose status is not `pending`, by any
attendant or admin, answers `400 Conversation is not pending` and returns
the store untouched (so attendantId and status are unchanged). -/
theorem assign_non_pending_rejected (db : DB) (now : Nat) (user : AuthUser)
    (id : Nat) (conv : Conversation)
    (hrole : user.role = Role.attendant ∨ user.role = Role.admin)
    (hfind : findConversation db id = some conv)
    (hstatus : conv.status ≠ ConvStatus.pending) :
    (assignConversation db now user id).res =
      Except.error ⟨400, "Conversation is not pending"⟩ ∧
    (assignConversation db now user id).db = db := by
  have hr : ¬ (user.role ≠ Role.attendant ∧ user.role ≠ Role.admin) := by
    rcases hrole with h | h <;> simp [h]
  simp [assignConversation, if_neg hr, hfind, hstatus]

theorem assign_non_pending_rejected_witness :
    (assignConversation c3DB 9 c3Att 5).res =
      Except.error ⟨400, "Conversation is not pending"⟩ ∧
    (assignConversation c3DB 9 c3Att 5).db = c3DB :=
  assign_non_pending_rejected c3DB 9 c3Att 5 c3Conv (Or.inl rfl) (by decide) (by decide)

/-- Every character a single draw can produce lies in the hex alphabet. -/
theorem hexChar_mem : ∀ d : Fin 16, hexChar d ∈ hexAlphabet := by decide

/-- A generated protocol code has exactly 13 characters. -/
theorem generateProtocol_length (draw : Fin 13 → Fin 16) :
    (generateProtocol draw).length = 13 := rfl

/-- Every character of a generated protocol code is in `0-9A-F`. -/
theorem generateProtocol_chars (draw : Fin 13 → Fin 16) :
    ∀ ch ∈ (generateProtocol draw).data, ch ∈ hexAlphabet := by
  intro ch hch
  simp only [generateProtocol, List.mem_map] at hch
  obtain ⟨i, _, hi⟩ := hch
  exact hi ▸ hexChar_mem (draw i)

/-- What the re-draw loop returns: some candidate from the stream, free of
collision with every existing conversation. -/
theorem pickProtocol_spec (db : DB) :
    ∀ (fuel : Nat) (cands : Nat → String) (p : String),
      pickProtocol db cands fuel = some p →
      (∃ k, p = cands k) ∧ protocolTaken db p = false := by
  intro fuel
  induction fuel with
  | zero => intro cands p h; simp [pickProtocol] at h
  | succ n ih =>
    intro cands p h
    simp only [pickProtocol] at h
    cases ht : protocolTaken db (cands 0) with
    | false =>
      rw [ht] at h
      simp only [Bool.false_eq_true, if_false, Option.some.injEq] at h
      exact ⟨⟨0, h.symm⟩, h ▸ ht⟩
    | true =>
      rw [ht] at h
      simp only [if_true] at h
      obtain ⟨⟨k, hk⟩, hfree⟩ := ih _ _ h
      exact ⟨⟨k + 1, hk⟩, hfree⟩

/-- A code the collision check cleared differs from every stored one. -/
theorem protocolTaken_false (db : DB) (p : String)
    (h : protocolTaken db p = false) :
    ∀ c ∈ db.conversations, c.protocol ≠ p := by
  intro c hc
  simp only [protocolTaken, List.any_eq_false] at h
  simpa using h c hc

/-- C5: every conversation the create handler returns carries a protocol
code of exactly 13 characters drawn from `0-9A-F`, and that code differs
from the protocol of every conversation already stored (the generator
re-draws on collision until a free code is found). -/
theorem protocol_format_and_unique (db : DB) (now : Nat) (user : AuthUser)
    (body : CreateBody) (draws : Nat → Fin 13 → Fin 16) (fuel : Nat)
    (c : Conversation)
    (h : (createConversation db now user body draws fuel).res = Except.ok c) :
    c.protocol.length = 13 ∧
    (∀ ch ∈ c.protocol.data, ch ∈ hexAlphabet) ∧
    ∀ c' ∈ db.conversations, c'.protocol ≠ c.protocol := by
  unfold createConversation at h
  by_cases hr : user.role ≠ Role.client
  · rw [if_pos hr] at h
    exact absurd h (by simp)
  · rw [if_neg hr] at h
    cases hp : pickProtocol db (fun n => generateProtocol (draws n)) fuel with
    | none => rw [hp] at h; exact absurd h (by simp)
    | some p =>
      rw [hp] at h
      simp only [Except.ok.injEq] at h
      obtain ⟨⟨k, hk⟩, hfree⟩ := pickProtocol_spec db fuel _ p hp
      have hcp : c.protocol = p := by rw [← h]
      subst hk
      rw [hcp]
      exact ⟨generateProtocol_length _, generateProtocol_chars _,
        protocolTaken_false db _ hfree⟩

theorem statusStep_refl (s : ConvStatus) : StatusStep s s := Or.inl rfl

theorem statusStep_to_closed (s : ConvStatus) : StatusStep s ConvStatus.closed := by
  cases s <;> simp [StatusStep]

/-- Shape of the store after `POST /messages`: either untouched (any error)
or with the target conversation's `updatedAt` touched. -/
theorem sendMessage_conversations (db : DB) (now : Nat) (user : AuthUser)
    (body : MessageBody) :
    (sendMessage db now user body).db.conversations = db.conversations ∨
    ∃ cid, (sendMessage db now user body).db.conversations =
      db.conversations.map
        (fun c => if c.id = cid then { c with updatedAt := now } else c) := by
  rcases body with ⟨ocid, content⟩
  cases ocid with
  | none => exact Or.inl rfl
  | some cid =>
    by_cases hc : content = ""
    · simp [sendMessage, hc]
    · cases hf : findConversation db cid with
      | none => simp [sendMessage, hc, hf]
      | some conv =>
        simp only [sendMessage, hc, hf, if_false]
        split_ifs
        · exact Or.inl rfl
        · exact Or.inl rfl
        · exact Or.inl rfl
        · exact Or.inr ⟨cid, rfl⟩

/-- Shape of the store after `POST /conversations/:id/close`: either
untouched or with the target row set to `closed`. -/
theorem closeConversation_conversations (db : DB) (now : Nat) (user : AuthUser)
    (id : Nat) :
    (closeConversation db now user id).db.conversations = db.conversations ∨
    (closeConversation db now user id).db.conversations =
      db.conversations.map (fun c => if c.id = id then
        { c with status := ConvStatus.closed, updatedAt := now } else c) := by
  unfold closeConversation
  split
  · exact Or.inl rfl
  · split_ifs
    · exact Or.inl rfl
    · exact Or.inl rfl
    · exact Or.inr rfl

/-- Shape of the store after `POST /conversations/:id/assign`: either
untouched, or — only when the found conversation is `pending` — with the
target row set to `active` with the requester as attendant. -/
theorem assignConversation_conversations (db : DB) (now : Nat) (user : AuthUser)
    (id : Nat) :
    (assignConversation db now user id).db.conversations = db.conversations ∨
    ∃ conv, findConversation db id = some conv ∧
      conv.status = ConvStatus.pending ∧
      (assignConversation db now user id).db.conversations =
        db.conversations.map (fun c =>
          if c.id = id then
            { c with attendantId := some user.id, status := ConvStatus.active, updatedAt := now }
          else c) := by
  unfold assignConversation
  by_cases hr : user.role ≠ Role.attendant ∧ user.role ≠ Role.admin
  · rw [if_pos hr]; exact Or.inl rfl
  · rw [if_neg hr]
    split
    · exact Or.inl rfl
    · rename_i conv hf
      split_ifs with hst
      · exact Or.inl rfl
      · exact Or.inr ⟨conv, hf, not_ne_iff.mp hst, rfl⟩

/-- Shape of the store after `POST /conversations`: either untouched or with
one fresh `pending` conversation appended. -/
theorem createConversation_conversations (db : DB) (now : Nat) (user : AuthUser)
    (body : CreateBody) (draws : Nat → Fin 13 → Fin 16) (fuel : Nat) :
    (createConversation db now user body draws fuel).db.conversations =
      db.conversations ∨
    ∃ p, (createConversation db now user body draws fuel).db.conversations =
      db.conversations ++
        [⟨db.nextId, p, body.channelId, user.id, none, ConvStatus.pending, now, now⟩] := by
  unfold createConversation
  by_cases hr : user.role ≠ Role.client
  · rw [if_pos hr]; exact Or.inl rfl
  · rw [if_neg hr]
    cases hp : pickProtocol db (fun n => generateProtocol (draws n)) fuel with
    | none => exact Or.inl rfl
    | some p =>
      refine Or.inr ⟨p, ?_⟩
      cases hbi : body.initialMessage with
      | none => rfl
      | some m => by_cases hm : m = "" <;> simp [hm]

/-- Mapping a status-preserving row transformation leaves the status of the
`i`-th row unchanged. -/
theorem mapStatus_getElem (l : List Conversation) (f : Conversation → Conversation)
    (hf : ∀ c, (f c).status = c.status) (i : Nat) :
    ((l.map f)[i]?).map (fun c => c.status) = (l[i]?).map (fun c => c.status) := by
  rw [List.getElem?_map]
  cases l[i]? with
  | none => rfl
  | some r => simp [hf]

/-- Both monotonicity conclusions hold trivially when the conversations
table is unchanged. -/
theorem stepStatus_of_unchanged (db db2 : DB)
    (h : db2.conversations = db.conversations) (i : Nat) :
    (∀ s s', statusAt db i = some s → statusAt db2 i = some s' → StatusStep s s') ∧
    (statusAt db i = none → ∀ s', statusAt db2 i = some s' →
      s' = ConvStatus.pending) := by
  have hpres : statusAt db2 i = statusAt db i := by unfold statusAt; rw [h]
  refine ⟨fun s s' hs hs' => ?_, fun hn s' hs' => ?_⟩
  · rw [hpres, hs] at hs'
    cases Option.some.inj hs'
    exact statusStep_refl s
  · rw [hpres, hn] at hs'
    exact absurd hs' (by simp)

/-- Both monotonicity conclusions hold when the table is mapped through a
status-preserving row transformation. -/
theorem stepStatus_of_map_preserving (db db2 : DB) (f : Conversation → Conversation)
    (hf : ∀ c, (f c).status = c.status)
    (h : db2.conversations = db.conversations.map f) (i : Nat) :
    (∀ s s', statusAt db i = some s → statusAt db2 i = some s' → StatusStep s s') ∧
    (statusAt db i = none → ∀ s', statusAt db2 i = some s' →
      s' = ConvStatus.pending) := by
  have hpres : statusAt db2 i = statusAt db i := by
    unfold statusAt
    rw [h]
    exact mapStatus_getElem _ _ hf i
  refine ⟨fun s s' hs hs' => ?_, fun hn s' hs' => ?_⟩
  · rw [hpres, hs] at hs'
    cases Option.some.inj hs'
    exact statusStep_refl s
  · rw [hpres, hn] at hs'
    exact absurd hs' (by simp)

/-- C2 (amended): every request changes each stored conversation's status
only along the order `pending -> active -> closed` — it leaves it unchanged,
moves `pending` to `active` (assign), or moves `pending` or `active` to
`closed` (close); in particular `active -> pending` and any exit from
`closed` never happen — and any newly appearing conversation starts at
`pending`.  (The sequence need not be a *left factor* of the full chain,
since close may skip `active`; see the counterexample.) -/
theorem status_transitions_monotone (db : DB) (now : Nat) (op : Op)
    (hids : (db.conversations.map fun c => c.id).Nodup) (i : Nat) :
    (∀ s s', statusAt db i = some s →
      statusAt (applyOp db now op) i = some s' → StatusStep s s') ∧
    (statusAt db i = none →
      ∀ s', statusAt (applyOp db now op) i = some s' →
        s' = ConvStatus.pending) := by
  cases op with
  | append user body =>
    rcases sendMessage_conversations db now user body with h | ⟨cid, h⟩
    · exact stepStatus_of_unchanged db _ h i
    · refine stepStatus_of_map_preserving db _ _ ?_ h i
      intro c
      by_cases hc : c.id = cid <;> simp [hc]
  | close user id =>
    rcases closeConversation_conversations db now user id with h | h
    · exact stepStatus_of_unchanged db _ h i
    · refine ⟨fun s s' hs hs' => ?_, fun hn s' hs' => ?_⟩
      · unfold applyOp statusAt at hs'
        rw [h, List.getElem?_map] at hs'
        unfold statusAt at hs
        cases hr : db.conversations[i]? with
        | none => rw [hr] at hs; exact absurd hs (by simp)
        | some r =>
          rw [hr] at hs hs'
          have hsr : r.status = s := by simpa using hs
          by_cases hid : r.id = id
          · have hs2 : ConvStatus.closed = s' := by simpa [hid] using hs'
            rw [← hs2, ← hsr]
            exact statusStep_to_closed r.status
          · have hs2 : r.status = s' := by simpa [hid] using hs'
            rw [← hs2, ← hsr]
            exact statusStep_refl r.status
      · unfold applyOp statusAt at hs'
        unfold statusAt at hn
        have hnone : db.conversations[i]? = none := by
          cases hq : db.conversations[i]? with
          | none => rfl
          | some r => rw [hq] at hn; exact absurd hn (by simp)
        rw [h, List.getElem?_map, hnone] at hs'
        exact absurd hs' (by simp)
  | assign user id =>
    rcases assignConversation_conversations db now user id with h | ⟨conv, hf, hpend, h⟩
    · exact stepStatus_of_unchanged db _ h i
    · refine ⟨fun s s' hs hs' => ?_, fun hn s' hs' => ?_⟩
      · unfold applyOp statusAt at hs'
        rw [h, List.getElem?_map] at hs'
        unfold statusAt at hs
        cases hr : db.conversations[i]? with
        | none => rw [hr] at hs; exact absurd hs (by simp)
        | some r =>
          rw [hr] at hs hs'
          have hsr : r.status = s := by simpa using hs
          by_cases hid : r.id = id
          · have hconvid : conv.id = id := by simpa using List.find?_some hf
            have hreq : r = conv :=
              List.inj_on_of_nodup_map hids (List.getElem?_mem hr)
                (List.mem_of_find?_eq_some hf) (by rw [hid, hconvid])
            have hs2 : ConvStatus.active = s' := by simpa [hid] using hs'
            have hsp : s = ConvStatus.pending := by rw [← hsr, hreq, hpend]
            rw [← hs2, hsp]
            exact Or.inr (Or.inl ⟨rfl, rfl⟩)
          · have hs2 : r.status = s' := by simpa [hid] using hs'
            rw [← hs2, ← hsr]
            exact statusStep_refl r.status
      · unfold applyOp statusAt at hs'
        unfold statusAt at hn
        have hnone : db.conversations[i]? = none := by
          cases hq : db.conversations[i]? with
          | none => rfl
          | some r => rw [hq] at hn; exact absurd hn (by simp)
        rw [h, List.getElem?_map, hnone] at hs'
        exact absurd hs' (by simp)
  | create user body draws fuel =>
    rcases createConversation_conversations db now user body draws fuel with h | ⟨p, h⟩
    · exact stepStatus_of_unchanged db _ h i
    · refine ⟨fun s s' hs hs' => ?_, fun hn s' hs' => ?_⟩
      · unfold applyOp statusAt at hs'
        unfold statusAt at hs
        cases hr : db.conversations[i]? with
        | none => rw [hr] at hs; exact absurd hs (by simp)
        | some r =>
          have hlen : i < db.conversations.length :=
            (List.getElem?_eq_some.mp hr).1
          rw [h, List.getElem?_append_left hlen, hr] at hs'
          rw [hr] at hs
          have h1 : r.status = s := by simpa using hs
          have h2 : r.status = s' := by simpa using hs'
          rw [← h1, ← h2]
          exact statusStep_refl r.status
      · unfold applyOp statusAt at hs'
        unfold statusAt at hn
        have hnone : db.conversations[i]? = none := by
          cases hq : db.conversations[i]? with
          | none => rfl
          | some r => rw [hq] at hn; exact absurd hn (by simp)
        have hlen : db.conversations.length ≤ i := List.getElem?_eq_none_iff.mp hnone
        rw [h] at hs'
        rcases Nat.eq_or_lt_of_le hlen with heq | hlt
        · rw [← heq, List.getElem?_concat_length] at hs'
          have : ConvStatus.pending = s' := by simpa using hs'
          exact this.symm
        · rw [List.getElem?_eq_none (by
            simp only [List.length_append, List.length_cons, List.length_nil]
            omega)] at hs'
          exact absurd hs' (by simp)

/-- The invariant transfers along an unchanged conversations table. -/
theorem pendingNoAttendant_of_eq (db db2 : DB)
    (h : db2.conversations = db.conversations)
    (hinv : pendingNoAttendant db) : pendingNoAttendant db2 := by
  intro c hc
  rw [h] at hc
  exact hinv c hc

/-- The invariant transfers along a mapped table when each row is either
kept pending with its attendant unchanged, moved out of pending, or given
no attendant. -/
theorem pendingNoAttendant_of_map (db db2 : DB) (f : Conversation → Conversation)
    (h : db2.conversations = db.conversations.map f)
    (hf : ∀ c, (f c).status = ConvStatus.pending →
      ((f c).attendantId = c.attendantId ∧ c.status = ConvStatus.pending) ∨
      (f c).attendantId = none)
    (hinv : pendingNoAttendant db) : pendingNoAttendant db2 := by
  intro c hc hp
  rw [h] at hc
  obtain ⟨r, hr, rfl⟩ := List.mem_map.mp hc
  rcases hf r hp with ⟨ha, hs⟩ | ha
  · rw [ha]
    exact hinv r hr hs
  · exact ha

/-- C4: every request preserves the invariant that a `pending` conversation
has no attendant; create persists `status=pending` with `attendantId=null`;
close and append never modify any conversation's `attendantId`; and when an
assign changes a row's `attendantId` it simultaneously sets the requester as
attendant and the status to `active`. -/
theorem pending_has_no_attendant (db : DB) (now : Nat)
    (hinv : pendingNoAttendant db) :
    (∀ op, pendingNoAttendant (applyOp db now op)) ∧
    (∀ user body draws fuel c,
      (createConversation db now user body draws fuel).res = Except.ok c →
      c.status = ConvStatus.pending ∧ c.attendantId = none) ∧
    (∀ user id,
      (closeConversation db now user id).db.conversations.map
          (fun c => c.attendantId) =
        db.conversations.map (fun c => c.attendantId)) ∧
    (∀ user body,
      (sendMessage db now user body).db.conversations.map
          (fun c => c.attendantId) =
        db.conversations.map (fun c => c.attendantId)) ∧
    (∀ (user : AuthUser) (id i : Nat) (r r2 : Conversation),
      db.conversations[i]? = some r →
      (assignConversation db now user id).db.conversations[i]? = some r2 →
      r2.attendantId ≠ r.attendantId →
      r2.status = ConvStatus.active ∧ r2.attendantId = some user.id) := by
  refine ⟨?_, ?_, ?_, ?_, ?_⟩
  · intro op
    cases op with
    | append user body =>
      rcases sendMessage_conversations db now user body with h | ⟨cid, h⟩
      · exact pendingNoAttendant_of_eq db _ h hinv
      · refine pendingNoAttendant_of_map db _ _ h ?_ hinv
        intro c hp
        by_cases hc : c.id = cid
        · simp [hc] at hp ⊢
          exact Or.inl hp
        · simp [hc] at hp ⊢
          exact Or.inl hp
    | close user id =>
      rcases closeConversation_conversations db now user id with h | h
      · exact pendingNoAttendant_of_eq db _ h hinv
      · refine pendingNoAttendant_of_map db _ _ h ?_ hinv
        intro c hp
        by_cases hc : c.id = id
        · simp [hc] at hp
        · simp [hc] at hp ⊢
          exact Or.inl hp
    | assign user id =>
      rcases assignConversation_conversations db now user id with h | ⟨conv, hf, hpend, h⟩
      · exact pendingNoAttendant_of_eq db _ h hinv
      · refine pendingNoAttendant_of_map db _ _ h ?_ hinv
        intro c hp
        by_cases hc : c.id = id
        · simp [hc] at hp
        · simp [hc] at hp ⊢
          exact Or.inl hp
    | create user body draws fuel =>
      rcases createConversation_conversations db now user body draws fuel with h | ⟨p, h⟩
      · exact pendingNoAttendant_of_eq db _ h hinv
      · intro c hc hp
        unfold applyOp at hc
        rw [h] at hc
        rcases List.mem_append.mp hc with hold | hnew
        · exact hinv c hold hp
        · rw [List.mem_singleton.mp hnew]
  · intro user body draws fuel c h
    unfold createConversation at h
    by_cases hr : user.role ≠ Role.client
    · rw [if_pos hr] at h
      exact absurd h (by simp)
    · rw [if_neg hr] at h
      cases hp : pickProtocol db (fun n => generateProtocol (draws n)) fuel with
      | none => rw [hp] at h; exact absurd h (by simp)
      | some p =>
        rw [hp] at h
        simp only [Except.ok.injEq] at h
        rw [← h]
        exact ⟨rfl, rfl⟩
  · intro user id
    rcases closeConversation_conversations db now user id with h | h
    · rw [h]
    · rw [h, List.map_map]
      refine List.map_congr_left ?_
      intro c _
      by_cases hc : c.id = id <;> simp [hc]
  · intro user body
    rcases sendMessage_conversations db now user body with h | ⟨cid, h⟩
    · rw [h]
    · rw [h, List.map_map]
      refine List.map_congr_left ?_
      intro c _
      by_cases hc : c.id = cid <;> simp [hc]
  · intro user id i r r2 hr hr2 hne
    rcases assignConversation_conversations db now user id with h | ⟨conv, hf, hpend, h⟩
    · rw [h, hr] at hr2
      exact absurd (congrArg (fun c => c.attendantId) (Option.some.inj hr2)).symm hne
    · rw [h, List.getElem?_map, hr] at hr2
      have hfr := Option.some.inj hr2
      by_cases hc : r.id = id
      · rw [← hfr]
        simp [hc]
      · simp only [hc, if_false] at hfr
        exact absurd (congrArg (fun c => c.attendantId) hfr).symm hne

theorem pending_has_no_attendant_witness :
    pendingNoAttendant c4DB ∧
    pendingNoAttendant (applyOp c4DB 2 (Op.close bugClient 0)) :=
  ⟨by decide, (pending_has_no_attendant c4DB 2 (by decide)).1 (Op.close bugClient 0)⟩

theorem status_transitions_monotone_witness :
    statusAt c2wDB 0 = some ConvStatus.pending ∧
    statusAt (applyOp c2wDB 1 (Op.assign c2wAtt 3)) 0 = some ConvStatus.active ∧
    StatusStep ConvStatus.pending ConvStatus.active :=
  ⟨by decide, by decide,
    (status_transitions_monotone c2wDB 1 (Op.assign c2wAtt 3) (by decide) 0).1
      ConvStatus.pending ConvStatus.active (by decide) (by decide)⟩

/-- Sorting by creation time descending yields a list pairwise ordered by
`createdAt` non-increasing. -/
theorem sortByCreatedAtDesc_sorted (l : List Conversation) :
    (sortByCreatedAtDesc l).Pairwise (fun a b => b.createdAt ≤ a.createdAt) := by
  unfold sortByCreatedAtDesc
  refine List.Pairwise.imp (fun h => of_decide_eq_true h)
    (List.sorted_mergeSort ?_ ?_ l)
  · intro a b c hab hbc
    exact decide_eq_true (Nat.le_trans (of_decide_eq_true hbc) (of_decide_eq_true hab))
  · intro a b
    simpa using Nat.le_total b.createdAt a.createdAt

/-- Sorting does not change membership. -/
theorem mem_sortByCreatedAtDesc (l : List Conversation) (c : Conversation) :
    c ∈ sortByCreatedAtDesc l ↔ c ∈ l := by
  unfold sortByCreatedAtDesc
  exact List.mem_mergeSort

/-- C8: `GET /conversations` returns exactly the stored conversations the
requester may see — a client those with `clientId` equal to their id, an
attendant the union of pending ones and those assigned to them, an admin
all — intersected with the optional status filter, and the result is
ordered by creation time descending. -/
theorem list_visibility_and_order (db : DB) (user : AuthUser)
    (filt : Option ConvStatus) :
    (∀ c, c ∈ listConversations db user filt ↔
      (c ∈ db.conversations ∧ specVisibleTo user c ∧
        ∀ s, filt = some s → c.status = s)) ∧
    (listConversations db user filt).Pairwise
      (fun a b => b.createdAt ≤ a.createdAt) := by
  constructor
  · intro c
    unfold listConversations
    rw [mem_sortByCreatedAtDesc, List.mem_filter]
    cases hu : user.role <;> cases filt <;>
      simp [roleWhere, specVisibleTo, hu, and_assoc]
  · exact sortByCreatedAtDesc_sorted _

/-- C6: with the conversation present and the content non-empty, a client's
append succeeds exactly when they own the conversation and it is `active`
(a foreign conversation answers 403, an own non-active one answers 400); an
attendant's append succeeds exactly when they are the assigned attendant,
whatever the status; an admin's append always succeeds; and every rejected
append leaves the store untouched (no message row is inserted). -/
theorem append_permission_rules (db : DB) (now : Nat) (user : AuthUser)
    (cid : Nat) (content : String) (conv : Conversation)
    (hfind : findConversation db cid = some conv) (hcontent : content ≠ "") :
    (user.role = Role.client →
      (exceptOk (sendMessage db now user ⟨some cid, content⟩).res = true ↔
        conv.clientId = user.id ∧ conv.status = ConvStatus.active)) ∧
    (user.role = Role.client → conv.clientId ≠ user.id →
      (sendMessage db now user ⟨some cid, content⟩).res =
        Except.error ⟨403, "Access denied"⟩) ∧
    (user.role = Role.client → conv.clientId = user.id →
        conv.status ≠ ConvStatus.active →
      (sendMessage db now user ⟨some cid, content⟩).res =
        Except.error ⟨400, "Conversation is not active yet"⟩) ∧
    (user.role = Role.attendant →
      (exceptOk (sendMessage db now user ⟨some cid, content⟩).res = true ↔
        conv.attendantId = some user.id)) ∧
    (user.role = Role.admin →
      exceptOk (sendMessage db now user ⟨some cid, content⟩).res = true) ∧
    (exceptOk (sendMessage db now user ⟨some cid, content⟩).res = false →
      (sendMessage db now user ⟨some cid, content⟩).db = db) := by
  simp only [sendMessage, hfind, if_neg hcontent]
  cases hu : user.role with
  | client =>
    by_cases h1 : conv.clientId = user.id
    · by_cases h2 : conv.status = ConvStatus.active
      · simp [h1, h2, exceptOk]
      · simp [h1, h2, exceptOk]
    · simp [h1, exceptOk]
  | attendant =>
    by_cases h3 : conv.attendantId = some user.id
    · simp [h3, exceptOk]
    · simp [h3, exceptOk]
  | admin => simp [exceptOk]

theorem append_permission_rules_witness :
    exceptOk (sendMessage c6DB 3 c6Admin ⟨some 1, "hi"⟩).res = true :=
  (append_permission_rules c6DB 3 c6Admin 1 "hi" c6Conv (by decide)
    (by decide)).2.2.2.2.1 rfl

/-- C7: on an existing conversation, a client's close succeeds exactly when
they own it, an attendant's exactly when they are the assigned attendant,
and an admin's always; the transition is not idempotency-checked — closing
an already-closed conversation succeeds again, re-applying `status=closed`
(and touching `updatedAt`) instead of erroring. -/
theorem close_authorization_rules (db : DB) (now : Nat) (user : AuthUser)
    (id : Nat) (conv : Conversation)
    (hfind : findConversation db id = some conv) :
    (user.role = Role.client →
      (exceptOk (closeConversation db now user id).res = true ↔
        conv.clientId = user.id)) ∧
    (user.role = Role.attendant →
      (exceptOk (closeConversation db now user id).res = true ↔
        conv.attendantId = some user.id)) ∧
    (user.role = Role.admin →
      exceptOk (closeConversation db now user id).res = true) ∧
    (conv.status = ConvStatus.closed →
      exceptOk (closeConversation db now user id).res = true →
      (closeConversation db now user id).res =
        Except.ok { conv with status := ConvStatus.closed, updatedAt := now }) := by
  simp only [closeConversation, hfind]
  cases hu : user.role with
  | client =>
    by_cases h1 : conv.clientId = user.id
    · simp [h1, exceptOk]
    · simp [h1, exceptOk]
  | attendant =>
    by_cases h2 : conv.attendantId = some user.id
    · simp [h2, exceptOk]
    · simp [h2, exceptOk]
  | admin => simp [exceptOk]

theorem close_authorization_rules_witness :
    exceptOk (closeConversation c7DB 4 c7Att 1).res = true ∧
    (closeConversation c7DB 4 c7Att 1).res =
      Except.ok { c7Conv with status := ConvStatus.closed, updatedAt := 4 } :=
  ⟨((close_authorization_rules c7DB 4 c7Att 1 c7Conv (by decide)).2.1 rfl).mpr rfl,
    (close_authorization_rules c7DB 4 c7Att 1 c7Conv (by decide)).2.2.2 rfl
      (((close_authorization_rules c7DB 4 c7Att 1 c7Conv (by decide)).2.1 rfl).mpr rfl)⟩

theorem protocol_format_and_unique_witness :
    c5Conv.protocol.length = 13 ∧
    (∀ ch ∈ c5Conv.protocol.data, ch ∈ hexAlphabet) ∧
    ∀ c' ∈ (⟨[], [], [], 0⟩ : DB).conversations, c'.protocol ≠ c5Conv.protocol :=
  protocol_format_and_unique ⟨[], [], [], 0⟩ 0 c5Client ⟨none, none⟩
    (fun _ _ => 5) 1 c5Conv (by decide)

end ChatApp
